import Mathlib

/-!
A verification development for the AST layer of the Solidity compiler front end
(libsolidity/ast/AST.h).  The definitions below are a shallow embedding of the
data model and the operations of that header; theorems settle the specified
properties against them.
-/

namespace SolAST

/-- Declaration::Visibility (AST.h line 185): ordered from restricted to unrestricted. -/
inductive Visibility
  | Default
  | Private
  | Internal
  | Public
  | External
deriving DecidableEq

/-- The underlying enumerator value of a Visibility, used by the C++ relational
    operators on the enum. -/
def Visibility.toNat : Visibility → Nat
  | .Default => 0
  | .Private => 1
  | .Internal => 2
  | .Public => 3
  | .External => 4

/-- The C++ comparison a >= b on Declaration::Visibility enumerators. -/
def Visibility.ge (a b : Visibility) : Bool :=
  decide (b.toNat ≤ a.toNat)

/-- The concrete kind of a declaration node.  The variable case records whether the
    object is a state variable (VariableDeclaration::m_isStateVariable), which is a
    per-object flag, not a separate class. -/
inductive DeclKind
  | importDirective
  | contractDefinition
  | structDefinition
  | enumDefinition
  | enumValue
  | functionDefinition
  | modifierDefinition
  | eventDefinition
  | variableDeclaration (isStateVariable : Bool)
  | magicVariableDeclaration
deriving DecidableEq

/-- Declaration::defaultVisibility (AST.h line 236) returns Public in the base class;
    the single override is VariableDeclaration::defaultVisibility (AST.h line 779),
    which returns Internal for every variable declaration. -/
def DeclKind.defaultVisibility : DeclKind → Visibility
  | .variableDeclaration _ => .Internal
  | _ => .Public

/-- A declaration: name, concrete kind and the visibility passed to the constructor
    (Declaration::m_visibility). -/
structure Declaration where
  name : String
  kind : DeclKind
  declaredVisibility : Visibility
deriving DecidableEq

/-- Declaration::visibility (AST.h line 215): resolves Default through the virtual
    defaultVisibility, otherwise returns the stored visibility unchanged. -/
def Declaration.visibility (d : Declaration) : Visibility :=
  if d.declaredVisibility = .Default then d.kind.defaultVisibility else d.declaredVisibility

/-- Declaration::isPublic (AST.h line 216). -/
def Declaration.isPublic (d : Declaration) : Bool :=
  d.visibility.ge .Public

/-- FunctionDefinition (AST.h lines 633-696), restricted to the fields the claims
    need: name, stored visibility, the constructor flag and the canonical type names
    of the parameters. -/
structure FunctionDefinition where
  name : String
  declaredVisibility : Visibility
  isConstructor : Bool
  parameterTypes : List String
deriving DecidableEq

/-- Declaration::visibility as inherited by FunctionDefinition, which does not
    override defaultVisibility, so Default resolves to Public. -/
def FunctionDefinition.visibility (f : FunctionDefinition) : Visibility :=
  if f.declaredVisibility = .Default then .Public else f.declaredVisibility

/-- Declaration::isPublic as seen by a FunctionDefinition. -/
def FunctionDefinition.isPublic (f : FunctionDefinition) : Bool :=
  f.visibility.ge .Public

/-- FunctionDefinition::isFallback (AST.h line 665). -/
def FunctionDefinition.isFallback (f : FunctionDefinition) : Bool :=
  !f.isConstructor && f.name.isEmpty

/-- FunctionDefinition::isPartOfExternalInterface (AST.h line 673). -/
def FunctionDefinition.isPartOfExternalInterface (f : FunctionDefinition) : Bool :=
  f.isPublic && !f.isConstructor && !f.isFallback

/-- VariableDeclaration (AST.h lines 702-791), restricted to the fields the claims
    need. -/
structure VariableDeclaration where
  name : String
  declaredVisibility : Visibility
  isStateVariable : Bool
deriving DecidableEq

/-- Declaration::visibility as seen by a VariableDeclaration, whose
    defaultVisibility override (AST.h line 779) resolves Default to Internal. -/
def VariableDeclaration.visibility (v : VariableDeclaration) : Visibility :=
  if v.declaredVisibility = .Default then .Internal else v.declaredVisibility

/-- Declaration::isPublic as seen by a VariableDeclaration. -/
def VariableDeclaration.isPublic (v : VariableDeclaration) : Bool :=
  v.visibility.ge .Public

/-- VariableDeclaration::isPartOfExternalInterface (AST.h line 735). -/
def VariableDeclaration.isPartOfExternalInterface (v : VariableDeclaration) : Bool :=
  v.isPublic

/-- StructDefinition (AST.h lines 495-516), restricted to its name. -/
structure StructDefinition where
  name : String
deriving DecidableEq

/-- EnumDefinition (AST.h lines 518-538), restricted to its name. -/
structure EnumDefinition where
  name : String
deriving DecidableEq

/-- UsingForDirective (AST.h lines 473-493), restricted to the library name. -/
structure UsingForDirective where
  libraryName : String
deriving DecidableEq

/-- ModifierDefinition (AST.h lines 796-823), restricted to its name. -/
structure ModifierDefinition where
  name : String
deriving DecidableEq

/-- EventDefinition (AST.h lines 855-883), restricted to its name. -/
structure EventDefinition where
  name : String
deriving DecidableEq

/-- One member of a contract body: the heterogeneous subnode list of a
    ContractDefinition holds exactly these dynamic kinds. -/
inductive SubNode
  | structDefinition (s : StructDefinition)
  | enumDefinition (e : EnumDefinition)
  | usingForDirective (u : UsingForDirective)
  | variableDeclaration (v : VariableDeclaration)
  | modifierDefinition (m : ModifierDefinition)
  | functionDefinition (f : FunctionDefinition)
  | eventDefinition (e : EventDefinition)
deriving DecidableEq

/-- The variant tags a filteredNodes request can ask for. -/
inductive NodeKind
  | structDefinition
  | enumDefinition
  | usingForDirective
  | variableDeclaration
  | modifierDefinition
  | functionDefinition
  | eventDefinition
deriving DecidableEq

/-- The dynamic kind of a subnode, the information a dynamic_cast in
    ASTNode::filteredNodes tests. -/
def SubNode.kind : SubNode → NodeKind
  | .structDefinition _ => .structDefinition
  | .enumDefinition _ => .enumDefinition
  | .usingForDirective _ => .usingForDirective
  | .variableDeclaration _ => .variableDeclaration
  | .modifierDefinition _ => .modifierDefinition
  | .functionDefinition _ => .functionDefinition
  | .eventDefinition _ => .eventDefinition

/-- ASTNode::filteredNodes (AST.h lines 119-127): walks the node list in order and
    keeps exactly the nodes whose dynamic type matches the requested variant. -/
def filteredNodes (k : NodeKind) (nodes : List SubNode) : List SubNode :=
  nodes.filter (fun n => n.kind == k)

/-- ContractDefinition (AST.h lines 370-442), restricted to the fields the claims
    need: the name, the heterogeneous subnode list and the mutable
    m_interfaceFunctionList cache (AST.h line 439), empty at construction. -/
structure ContractDefinition where
  name : String
  subNodes : List SubNode
  interfaceFunctionListCache : Option (List (String × String)) := none
deriving DecidableEq

/-- ContractDefinition::definedFunctions (AST.h line 401):
    filteredNodes of FunctionDefinition over m_subNodes, with the typed payloads
    extracted the way the dynamic_cast in filteredNodes does. -/
def ContractDefinition.definedFunctions (c : ContractDefinition) : List FunctionDefinition :=
  c.subNodes.filterMap (fun n =>
    match n with
    | .functionDefinition f => some f
    | _ => none)

/-- Whether a subnode is a struct definition (the first traversal pass of a
    contract body). -/
def SubNode.isStructDefinition : SubNode → Bool
  | .structDefinition _ => true
  | _ => false

/-- Whether a subnode is a (state-)variable declaration (the second traversal pass
    of a contract body). -/
def SubNode.isVariableDeclaration : SubNode → Bool
  | .variableDeclaration _ => true
  | _ => false

/-- Modelled from the spec: the body of ContractDefinition::accept lives in
    AST_accept.h / AST.cpp, which is not part of this source tree.  AST.h lines
    366-368 document it and the spec states it: the contract body is the only part
    of the tree not walked in source order; it is walked in three passes - all
    struct definitions, then all state-variable declarations, then all remaining
    members - each pass keeping the original relative source order.  The result here
    is the sequence of subnodes in the order the visitor is dispatched into them. -/
def contractBodyTraversal (nodes : List SubNode) : List SubNode :=
  nodes.filter SubNode.isStructDefinition
    ++ nodes.filter SubNode.isVariableDeclaration
    ++ nodes.filter (fun n => !n.isStructDefinition && !n.isVariableDeclaration)

/-- The pass a subnode belongs to in the contract-body traversal: structs first,
    then state variables, then everything else. -/
def SubNode.groupRank (n : SubNode) : Nat :=
  if n.isStructDefinition then 0 else if n.isVariableDeclaration then 1 else 2

/-- Comma-joins a list of canonical type names, no spaces. -/
def commaSeparated : List String → String
  | [] => ""
  | [t] => t
  | t :: ts => t ++ "," ++ commaSeparated ts

/-- Modelled from the spec: FunctionDefinition::externalSignature (declared at AST.h
    line 678, body in AST.cpp, not under src/) - the name of the function followed by
    the canonical types of the arguments separated by commas, all enclosed in
    parentheses without any spaces. -/
def FunctionDefinition.externalSignature (f : FunctionDefinition) : String :=
  f.name ++ "(" ++ commaSeparated f.parameterTypes ++ ")"

/-- Modelled from the spec: the body that fills ContractDefinition's
    m_interfaceFunctionList (AST.cpp, not under src/) - one entry per function that is
    part of the external interface and one synthesized accessor entry per public state
    variable, keyed by the canonical signature.  The 4-byte keccak selector step is
    also outside this source tree, so the key is kept as the canonical signature
    string itself; the second component names the exported function. -/
def computeInterfaceFunctionList (nodes : List SubNode) : List (String × String) :=
  nodes.foldr
    (fun n acc =>
      match n with
      | .functionDefinition f =>
          if f.isPartOfExternalInterface then (f.externalSignature, f.name) :: acc else acc
      | .variableDeclaration v =>
          if v.isStateVariable && v.isPartOfExternalInterface then
            (v.name ++ "()", v.name) :: acc
          else acc
      | _ => acc)
    []

/-- The state interfaceFunctionList runs in: the contract (with its mutable cache
    member) plus the annotation payloads of every other node of the tree, indexed by
    node id. -/
structure CompilationState where
  contract : ContractDefinition
  annotations : List (Nat × String)
deriving DecidableEq

/-- Modelled from the spec: ContractDefinition::interfaceFunctionList (declared at
    AST.h line 410, body in AST.cpp, not under src/) - on the first call it computes
    the exported-function list and stores it into the mutable
    m_interfaceFunctionList member (AST.h line 439); every later call returns the
    cached list unchanged.  The returned pair is the list together with the state
    after the call. -/
def interfaceFunctionList (s : CompilationState) :
    List (String × String) × CompilationState :=
  match s.contract.interfaceFunctionListCache with
  | some l => (l, s)
  | none =>
      let l := computeInterfaceFunctionList s.contract.subNodes
      (l, { s with contract := { s.contract with interfaceFunctionListCache := some l } })

/-- Inserts one selector entry into the map, keeping an already-present key (the
    behaviour of std::map::insert used to build the interfaceFunctions map). -/
def mapInsert (m : List (String × String)) (kv : String × String) :
    List (String × String) :=
  if m.any (fun e => e.1 == kv.1) then m else m ++ [kv]

/-- Builds the selector-keyed map from the exported-function list. -/
def mapOfList (l : List (String × String)) : List (String × String) :=
  l.foldl mapInsert []

/-- Modelled from the spec: ContractDefinition::interfaceFunctions (declared at AST.h
    line 409, body in AST.cpp, not under src/) - builds the selector-to-function map
    from the cached interfaceFunctionList. -/
def interfaceFunctions (s : CompilationState) :
    List (String × String) × CompilationState :=
  let p := interfaceFunctionList s
  (mapOfList p.1, p.2)

/-- Modelled from the spec: the id dispenser (AST.cpp, not under src/) behind
    ASTNode::id (AST.h line 72) - every node construction increments the run-global
    counter and takes the new value as its id, so allocate-id() returns a fresh,
    strictly larger id each time. -/
def allocateID (counter : Nat) : Nat × Nat :=
  (counter + 1, counter + 1)

/-- The ids handed out by a sequence of n node constructions starting from a given
    counter value, in construction order. -/
def constructionIDs : Nat → Nat → List Nat
  | _, 0 => []
  | c, Nat.succ n => (allocateID c).1 :: constructionIDs (allocateID c).2 n

/-- ASTNode::listAccept (AST.h lines 78-91): iterates over an ordered list of
    optional children and dispatches accept into every non-null element, skipping
    null ones.  The result is the sequence of children the visitor is dispatched
    into, in order. -/
def listAccept {α : Type} : List (Option α) → List α
  | [] => []
  | none :: rest => listAccept rest
  | some x :: rest => x :: listAccept rest

/-- A live AST node object for the identity-comparison semantics: its address
    (the value of the this pointer) and its structural content.  Nodes are
    noncopyable, so distinct live objects have distinct addresses. -/
structure NodeObject where
  addr : Nat
  content : String
deriving DecidableEq

/-- ASTNode::operator== (AST.h line 106): this == &_other, i.e. address identity,
    not structural equality. -/
def nodeEq (a b : NodeObject) : Bool :=
  a.addr == b.addr

/-- ASTNode::operator!= (AST.h line 107): the negation of operator==. -/
def nodeNe (a b : NodeObject) : Bool :=
  !nodeEq a b

/-- A minimal expression payload for argument lists and operator nodes. -/
inductive Expression
  | identifier (declarationID : Nat)
  | literalNumber (value : Nat)
deriving DecidableEq

/-- InheritanceSpecifier (AST.h lines 444-466): the base name and the optional
    constructor-argument list.  The unique_ptr to the argument vector is none when
    no argument list was written and some when one was (possibly empty). -/
structure InheritanceSpecifier where
  baseName : String
  m_arguments : Option (List Expression)
deriving DecidableEq

/-- InheritanceSpecifier::arguments (AST.h line 461): returns the null pointer if no
    argument list was given and the (possibly empty) vector otherwise. -/
def InheritanceSpecifier.arguments (s : InheritanceSpecifier) : Option (List Expression) :=
  s.m_arguments

/-- ModifierInvocation (AST.h lines 828-850): the modifier name and the optional
    argument list, with the same null-versus-empty distinction. -/
structure ModifierInvocation where
  name : String
  m_arguments : Option (List Expression)
deriving DecidableEq

/-- ModifierInvocation::arguments (AST.h line 845). -/
def ModifierInvocation.arguments (m : ModifierInvocation) : Option (List Expression) :=
  m.m_arguments

/-- Modelled from the spec: the parser (not under src/) constructs a base-contract
    reference written without parentheses with a null argument-list pointer. -/
def inheritanceNoParens (base : String) : InheritanceSpecifier :=
  { baseName := base, m_arguments := none }

/-- Modelled from the spec: the parser (not under src/) constructs a base-contract
    reference written with empty parentheses with a pointer to an empty vector. -/
def inheritanceEmptyParens (base : String) : InheritanceSpecifier :=
  { baseName := base, m_arguments := some [] }

/-- Modelled from the spec: a modifier invocation written without parentheses gets a
    null argument-list pointer. -/
def modifierNoParens (n : String) : ModifierInvocation :=
  { name := n, m_arguments := none }

/-- Modelled from the spec: a modifier invocation written with empty parentheses
    gets a pointer to an empty vector. -/
def modifierEmptyParens (n : String) : ModifierInvocation :=
  { name := n, m_arguments := some [] }

/-- The operator tokens of the language (libsolidity/parsing/Token.h, not under
    src/), restricted to the classes the expression constructors assert on, plus a
    few non-operator tokens. -/
inductive Token
  | Assign
  | AssignBitOr
  | AssignBitXor
  | AssignBitAnd
  | AssignShl
  | AssignSar
  | AssignShr
  | AssignAdd
  | AssignSub
  | AssignMul
  | AssignDiv
  | AssignMod
  | Comma
  | Or
  | And
  | BitOr
  | BitXor
  | BitAnd
  | SHL
  | SAR
  | SHR
  | Add
  | Sub
  | Mul
  | Div
  | Mod
  | Exp
  | Equal
  | NotEqual
  | LessThan
  | GreaterThan
  | LessThanOrEqual
  | GreaterThanOrEqual
  | Not
  | BitNot
  | Inc
  | Dec
  | Delete
  | LParen
  | Semicolon
  | Identifier
  | Number
deriving DecidableEq

namespace TokenTraits

/-- Modelled from the spec: TokenTraits::isAssignmentOp (Token.h, not under src/) -
    plain assignment and the compound assignment operators. -/
def isAssignmentOp : Token → Bool
  | .Assign | .AssignBitOr | .AssignBitXor | .AssignBitAnd | .AssignShl
  | .AssignSar | .AssignShr | .AssignAdd | .AssignSub | .AssignMul
  | .AssignDiv | .AssignMod => true
  | _ => false

/-- Modelled from the spec: TokenTraits::isBinaryOp (Token.h, not under src/) - the
    comma, logical, bitwise, shift and arithmetic binary operators. -/
def isBinaryOp : Token → Bool
  | .Comma | .Or | .And | .BitOr | .BitXor | .BitAnd | .SHL | .SAR | .SHR
  | .Add | .Sub | .Mul | .Div | .Mod | .Exp => true
  | _ => false

/-- Modelled from the spec: TokenTraits::isCompareOp (Token.h, not under src/). -/
def isCompareOp : Token → Bool
  | .Equal | .NotEqual | .LessThan | .GreaterThan
  | .LessThanOrEqual | .GreaterThanOrEqual => true
  | _ => false

/-- Modelled from the spec: TokenTraits::isUnaryOp (Token.h, not under src/) -
    logical and bitwise negation, increment, decrement, delete, and unary plus and
    minus. -/
def isUnaryOp : Token → Bool
  | .Not | .BitNot | .Inc | .Dec | .Delete | .Add | .Sub => true
  | _ => false

end TokenTraits

/-- Assignment (AST.h lines 1495-1522), restricted to the operands and the
    operator. -/
structure Assignment where
  leftHandSide : Expression
  assignmentOperator : Token
  rightHandSide : Expression
deriving DecidableEq

/-- Assignment::Assignment (AST.h lines 1498-1510): the constructor asserts
    TokenTraits::isAssignmentOp on the operator token; a failing assertion aborts,
    so no node is constructed - modelled as none. -/
def Assignment.construct (lhs : Expression) (op : Token) (rhs : Expression) :
    Option Assignment :=
  if TokenTraits.isAssignmentOp op then
    some { leftHandSide := lhs, assignmentOperator := op, rightHandSide := rhs }
  else none

/-- UnaryOperation (AST.h lines 1558-1585), restricted to the operator, the operand
    and the pre/postfix flag. -/
structure UnaryOperation where
  operatorToken : Token
  subExpression : Expression
  prefixed : Bool
deriving DecidableEq

/-- UnaryOperation::UnaryOperation (AST.h lines 1561-1573): the constructor asserts
    TokenTraits::isUnaryOp on the operator token. -/
def UnaryOperation.construct (op : Token) (sub : Expression) (pre : Bool) :
    Option UnaryOperation :=
  if TokenTraits.isUnaryOp op then
    some { operatorToken := op, subExpression := sub, prefixed := pre }
  else none

/-- BinaryOperation (AST.h lines 1591-1617), restricted to the operands and the
    operator. -/
structure BinaryOperation where
  leftExpression : Expression
  operatorToken : Token
  rightExpression : Expression
deriving DecidableEq

/-- BinaryOperation::BinaryOperation (AST.h lines 1594-1603): the constructor
    asserts that the operator token is a binary or comparison operator. -/
def BinaryOperation.construct (l : Expression) (op : Token) (r : Expression) :
    Option BinaryOperation :=
  if TokenTraits.isBinaryOp op || TokenTraits.isCompareOp op then
    some { leftExpression := l, operatorToken := op, rightExpression := r }
  else none

/-- A sample base-contract name for concrete instances. -/
def sampleBaseName : String :=
  "Base"

/-- A sample modifier name for concrete instances. -/
def sampleModifierName : String :=
  "guarded"

/-! Helper lemmas shared by the claim theorems. -/

/-- How the traversal-pass predicates and the pass rank relate, by case analysis on
    the subnode kind. -/
theorem subNodePassFacts (n : SubNode) :
    (n.isStructDefinition = true → n.isVariableDeclaration = false ∧ n.groupRank = 0)
    ∧ (n.isVariableDeclaration = true → n.isStructDefinition = false ∧ n.groupRank = 1)
    ∧ (n.isStructDefinition = false → n.isVariableDeclaration = false → n.groupRank = 2) := by
  cases n <;>
    simp [SubNode.isStructDefinition, SubNode.isVariableDeclaration, SubNode.groupRank]

/-- A list all of whose elements are equal is pairwise non-decreasing. -/
theorem pairwiseLeOfConst {l : List Nat} {c : Nat} (h : ∀ x ∈ l, x = c) :
    l.Pairwise (fun a b => a ≤ b) := by
  induction l with
  | nil => exact List.Pairwise.nil
  | cons a t ih =>
      constructor
      · intro b hb
        rw [h a (by simp), h b (by simp [hb])]
      · exact ih (fun x hx => h x (by simp [hx]))

/-- Extracting the function payloads the way definedFunctions does and re-wrapping
    them gives exactly the filteredNodes view. -/
theorem definedFunctionsFilterEq (l : List SubNode) :
    (l.filterMap (fun n =>
        match n with
        | .functionDefinition f => some f
        | _ => none)).map SubNode.functionDefinition
      = filteredNodes .functionDefinition l := by
  induction l with
  | nil => rfl
  | cons x xs ih =>
      cases x <;> simpa [filteredNodes, List.filter_cons, SubNode.kind] using ih

/-! The claim theorems. -/

/-- C2 counterexample: the claim says Default resolves to Internal for state
    variables and to Public for every other declaration, but a variable declaration
    that is not a state variable (a parameter or local) constructed with Default
    also resolves to Internal, because the defaultVisibility override is on the
    VariableDeclaration class, not conditioned on the state-variable flag. -/
theorem defaultResolutionClaimFailsOnNonStateVariable :
    Declaration.visibility ⟨"param", .variableDeclaration false, .Default⟩
        = Visibility.Internal
    ∧ Declaration.visibility ⟨"param", .variableDeclaration false, .Default⟩
        ≠ Visibility.Public := by
  decide

/-- C2 (amended): for every declaration constructed with Visibility::Default, the
    visibility() accessor resolves it through the kind-specific defaultVisibility
    before any comparison - Internal for every variable declaration (state variable
    or not) and Public for every other declaration kind - so Default is never
    observed by consumers of the accessor. -/
theorem visibilityResolvesDefaultPerKind :
    ∀ d : Declaration,
      Declaration.visibility d ≠ Visibility.Default
      ∧ (d.declaredVisibility = Visibility.Default →
          Declaration.visibility d = d.kind.defaultVisibility)
      ∧ (∀ b : Bool,
          DeclKind.defaultVisibility (.variableDeclaration b) = Visibility.Internal)
      ∧ (∀ k : DeclKind, (∀ b : Bool, k ≠ .variableDeclaration b) →
          DeclKind.defaultVisibility k = Visibility.Public) := by
  intro d
  refine ⟨?_, ?_, ?_, ?_⟩
  · unfold Declaration.visibility
    split
    · cases hk : d.kind <;> simp [DeclKind.defaultVisibility]
    · assumption
  · intro h
    simp [Declaration.visibility, h]
  · intro b
    rfl
  · intro k h
    cases k <;> first | rfl | exact absurd rfl (h _)

/-- C2 witness: the amended theorem applied to a state variable constructed with
    Default visibility. -/
theorem visibilityResolvesDefaultPerKindWitness :
    Declaration.visibility ⟨"x", .variableDeclaration true, .Default⟩
      = DeclKind.defaultVisibility (.variableDeclaration true) :=
  (visibilityResolvesDefaultPerKind ⟨"x", .variableDeclaration true, .Default⟩).2.1 rfl

/-- C3: a FunctionDefinition is a fallback exactly when it is not a constructor and
    its name is empty, and it is part of the external interface exactly when its
    resolved visibility is at least Public and it is neither a constructor nor a
    fallback. -/
theorem fallbackAndExternalInterfaceSpec :
    ∀ f : FunctionDefinition,
      (f.isFallback = true ↔ f.isConstructor = false ∧ f.name = "")
      ∧ (f.isPartOfExternalInterface = true ↔
          Visibility.Public.toNat ≤ f.visibility.toNat
          ∧ f.isConstructor = false
          ∧ f.isFallback = false) := by
  intro f
  constructor
  · simp [FunctionDefinition.isFallback, Bool.and_eq_true, Bool.not_eq_true']
    intro _
    exact String.isEmpty_iff f.name
  · simp [FunctionDefinition.isPartOfExternalInterface, FunctionDefinition.isPublic,
      Visibility.ge, Bool.and_eq_true, Bool.not_eq_true', and_assoc]

/-- C3 witness: a plain named function with unspecified visibility is part of the
    external interface, and an unnamed non-constructor is a fallback. -/
theorem fallbackAndExternalInterfaceSpecWitness :
    FunctionDefinition.isPartOfExternalInterface ⟨"f", .Default, false, []⟩ = true
    ∧ FunctionDefinition.isFallback ⟨"", .Default, false, []⟩ = true :=
  ⟨(fallbackAndExternalInterfaceSpec ⟨"f", .Default, false, []⟩).2.mpr (by decide),
   (fallbackAndExternalInterfaceSpec ⟨"", .Default, false, []⟩).1.mpr (by decide)⟩

/-- C5: filteredNodes returns exactly the order-preserving sub-sequence of the
    heterogeneous node list whose dynamic kind matches the requested one (an empty
    result when nothing matches), and the definedFunctions convenience accessor
    agrees with filteredNodes of FunctionDefinition over the contract subnodes. -/
theorem filteredNodesSpec :
    ∀ (k : NodeKind) (ns : List SubNode) (c : ContractDefinition),
      List.Sublist (filteredNodes k ns) ns
      ∧ (∀ n : SubNode, n ∈ filteredNodes k ns ↔ n ∈ ns ∧ n.kind = k)
      ∧ (∀ n : SubNode, n.kind = k →
          (filteredNodes k ns).count n = ns.count n)
      ∧ ((∀ n ∈ ns, n.kind ≠ k) → filteredNodes k ns = [])
      ∧ (c.definedFunctions.map SubNode.functionDefinition
          = filteredNodes .functionDefinition c.subNodes) := by
  intro k ns c
  refine ⟨List.filter_sublist ns, ?_, ?_, ?_, ?_⟩
  · intro n
    simp [filteredNodes, List.mem_filter]
  · intro n hn
    exact List.count_filter (by simp [hn])
  · intro h
    unfold filteredNodes
    rw [List.filter_eq_nil_iff]
    intro n hn
    simp [h n hn]
  · exact definedFunctionsFilterEq c.subNodes

/-- C5 witness: the theorem applied to a mixed concrete subnode list. -/
theorem filteredNodesSpecWitness :
    (filteredNodes .functionDefinition
        [.structDefinition ⟨"S"⟩, .variableDeclaration ⟨"v", .Default, true⟩] = [])
    ∧ (filteredNodes .structDefinition
        [.functionDefinition ⟨"funcA", .Default, false, []⟩, .structDefinition ⟨"S"⟩]).count
          (.structDefinition ⟨"S"⟩)
        = ([.functionDefinition ⟨"funcA", .Default, false, []⟩,
            .structDefinition ⟨"S"⟩] : List SubNode).count (.structDefinition ⟨"S"⟩) :=
  ⟨(filteredNodesSpec .functionDefinition
      [.structDefinition ⟨"S"⟩, .variableDeclaration ⟨"v", .Default, true⟩]
      ⟨"C", [], none⟩).2.2.2.1 (by decide),
   (filteredNodesSpec .structDefinition
      [.functionDefinition ⟨"funcA", .Default, false, []⟩, .structDefinition ⟨"S"⟩]
      ⟨"C", [], none⟩).2.2.1 _ rfl⟩

/-- C1: the contract-body traversal is not in source order: it visits a permutation
    of the subnodes in which the pass ranks are non-decreasing (all structs first,
    then all state variables, then all remaining members), each of the three groups
    keeping its original relative source order; in particular source order
    funcA, structS, varV is traversed as structS, varV, funcA. -/
theorem contractBodyTraversalSpec :
    (∀ ns : List SubNode,
      ((contractBodyTraversal ns).map SubNode.groupRank).Pairwise (fun a b => a ≤ b)
      ∧ List.Perm (contractBodyTraversal ns) ns
      ∧ (contractBodyTraversal ns).filter SubNode.isStructDefinition
          = ns.filter SubNode.isStructDefinition
      ∧ (contractBodyTraversal ns).filter SubNode.isVariableDeclaration
          = ns.filter SubNode.isVariableDeclaration
      ∧ (contractBodyTraversal ns).filter
            (fun n => !n.isStructDefinition && !n.isVariableDeclaration)
          = ns.filter (fun n => !n.isStructDefinition && !n.isVariableDeclaration))
    ∧ contractBodyTraversal
        [.functionDefinition ⟨"funcA", .Default, false, []⟩,
         .structDefinition ⟨"S"⟩,
         .variableDeclaration ⟨"v", .Default, true⟩]
      = [.structDefinition ⟨"S"⟩,
         .variableDeclaration ⟨"v", .Default, true⟩,
         .functionDefinition ⟨"funcA", .Default, false, []⟩] := by
  constructor
  · intro ns
    have hA0 : ∀ x ∈ (ns.filter SubNode.isStructDefinition).map SubNode.groupRank, x = 0 := by
      intro x hx
      obtain ⟨n, hn, rfl⟩ := List.mem_map.mp hx
      exact ((subNodePassFacts n).1 (List.mem_filter.mp hn).2).2
    have hB1 : ∀ x ∈ (ns.filter SubNode.isVariableDeclaration).map SubNode.groupRank, x = 1 := by
      intro x hx
      obtain ⟨n, hn, rfl⟩ := List.mem_map.mp hx
      exact ((subNodePassFacts n).2.1 (List.mem_filter.mp hn).2).2
    have hC2 : ∀ x ∈ (ns.filter
        (fun n => !n.isStructDefinition && !n.isVariableDeclaration)).map SubNode.groupRank,
        x = 2 := by
      intro x hx
      obtain ⟨n, hn, rfl⟩ := List.mem_map.mp hx
      have hp := (List.mem_filter.mp hn).2
      rw [Bool.and_eq_true, Bool.not_eq_true', Bool.not_eq_true'] at hp
      exact (subNodePassFacts n).2.2 hp.1 hp.2
    have eAs : (ns.filter SubNode.isStructDefinition).filter SubNode.isStructDefinition
        = ns.filter SubNode.isStructDefinition := by
      rw [List.filter_eq_self]
      intro n hn
      exact (List.mem_filter.mp hn).2
    have eBs : (ns.filter SubNode.isVariableDeclaration).filter SubNode.isStructDefinition
        = [] := by
      rw [List.filter_eq_nil_iff]
      intro n hn
      simp [((subNodePassFacts n).2.1 (List.mem_filter.mp hn).2).1]
    have eCs : (ns.filter
          (fun n => !n.isStructDefinition && !n.isVariableDeclaration)).filter
          SubNode.isStructDefinition = [] := by
      rw [List.filter_eq_nil_iff]
      intro n hn
      have hp := (List.mem_filter.mp hn).2
      rw [Bool.and_eq_true, Bool.not_eq_true', Bool.not_eq_true'] at hp
      simp [hp.1]
    have eAv : (ns.filter SubNode.isStructDefinition).filter SubNode.isVariableDeclaration
        = [] := by
      rw [List.filter_eq_nil_iff]
      intro n hn
      simp [((subNodePassFacts n).1 (List.mem_filter.mp hn).2).1]
    have eBv : (ns.filter SubNode.isVariableDeclaration).filter SubNode.isVariableDeclaration
        = ns.filter SubNode.isVariableDeclaration := by
      rw [List.filter_eq_self]
      intro n hn
      exact (List.mem_filter.mp hn).2
    have eCv : (ns.filter
          (fun n => !n.isStructDefinition && !n.isVariableDeclaration)).filter
          SubNode.isVariableDeclaration = [] := by
      rw [List.filter_eq_nil_iff]
      intro n hn
      have hp := (List.mem_filter.mp hn).2
      rw [Bool.and_eq_true, Bool.not_eq_true', Bool.not_eq_true'] at hp
      simp [hp.2]
    have eAr : (ns.filter SubNode.isStructDefinition).filter
        (fun n => !n.isStructDefinition && !n.isVariableDeclaration) = [] := by
      rw [List.filter_eq_nil_iff]
      intro n hn
      simp [(List.mem_filter.mp hn).2]
    have eBr : (ns.filter SubNode.isVariableDeclaration).filter
        (fun n => !n.isStructDefinition && !n.isVariableDeclaration) = [] := by
      rw [List.filter_eq_nil_iff]
      intro n hn
      simp [(List.mem_filter.mp hn).2]
    have eCr : (ns.filter
          (fun n => !n.isStructDefinition && !n.isVariableDeclaration)).filter
          (fun n => !n.isStructDefinition && !n.isVariableDeclaration)
        = ns.filter (fun n => !n.isStructDefinition && !n.isVariableDeclaration) := by
      rw [List.filter_eq_self]
      intro n hn
      exact (List.mem_filter.mp hn).2
    refine ⟨?_, ?_, ?_, ?_, ?_⟩
    · rw [contractBodyTraversal, List.map_append, List.map_append, List.append_assoc]
      refine List.pairwise_append.mpr ⟨pairwiseLeOfConst hA0,
        List.pairwise_append.mpr ⟨pairwiseLeOfConst hB1, pairwiseLeOfConst hC2, ?_⟩, ?_⟩
      · intro a ha b hb
        rw [hB1 a ha, hC2 b hb]
        omega
      · intro a ha b _
        rw [hA0 a ha]
        exact Nat.zero_le _
    · have hvarSplit : ∀ n ∈ ns,
          n.isVariableDeclaration = (n.isVariableDeclaration && !n.isStructDefinition) := by
        intro n _
        cases n <;> rfl
      have hrestSplit : ∀ n ∈ ns,
          (!n.isStructDefinition && !n.isVariableDeclaration)
            = (!n.isVariableDeclaration && !n.isStructDefinition) := by
        intro n _
        cases n <;> rfl
      have h1 : ns.filter SubNode.isVariableDeclaration
          = (ns.filter (fun n => !n.isStructDefinition)).filter
              SubNode.isVariableDeclaration := by
        rw [List.filter_filter]
        exact List.filter_congr hvarSplit
      have h2 : ns.filter (fun n => !n.isStructDefinition && !n.isVariableDeclaration)
          = (ns.filter (fun n => !n.isStructDefinition)).filter
              (fun n => !n.isVariableDeclaration) := by
        rw [List.filter_filter]
        exact List.filter_congr hrestSplit
      have hBC : List.Perm
          (ns.filter SubNode.isVariableDeclaration
            ++ ns.filter (fun n => !n.isStructDefinition && !n.isVariableDeclaration))
          (ns.filter (fun n => !n.isStructDefinition)) := by
        rw [h1, h2]
        exact List.filter_append_perm _ _
      have hfull : List.Perm
          (ns.filter SubNode.isStructDefinition
            ++ ns.filter (fun n => !n.isStructDefinition)) ns :=
        List.filter_append_perm _ _
      rw [contractBodyTraversal, List.append_assoc]
      exact List.Perm.trans (List.Perm.append_left _ hBC) hfull
    · rw [contractBodyTraversal, List.filter_append, List.filter_append, eAs, eBs, eCs,
        List.append_nil, List.append_nil]
    · rw [contractBodyTraversal, List.filter_append, List.filter_append, eAv, eBv, eCv,
        List.append_nil, List.nil_append]
    · rw [contractBodyTraversal, List.filter_append, List.filter_append, eAr, eBr, eCr,
        List.nil_append, List.nil_append]
  · decide

/-- C4: interfaceFunctionList and interfaceFunctions compute the exported-function
    mapping once, cache it in the contract, and return: a second call returns the
    same cached mapping and leaves the whole state unchanged, the first call on a
    fresh contract stores exactly what it computed, and neither call alters the
    annotation of any other node. -/
theorem interfaceFunctionsCachedSpec :
    ∀ s : CompilationState,
      (interfaceFunctionList (interfaceFunctionList s).2).1 = (interfaceFunctionList s).1
      ∧ (interfaceFunctionList (interfaceFunctionList s).2).2 = (interfaceFunctionList s).2
      ∧ (interfaceFunctionList s).2.annotations = s.annotations
      ∧ (interfaceFunctions (interfaceFunctions s).2).1 = (interfaceFunctions s).1
      ∧ (interfaceFunctions (interfaceFunctions s).2).2 = (interfaceFunctions s).2
      ∧ (interfaceFunctions s).2.annotations = s.annotations
      ∧ (s.contract.interfaceFunctionListCache = none →
          (interfaceFunctionList s).1 = computeInterfaceFunctionList s.contract.subNodes
          ∧ (interfaceFunctionList s).2.contract.interfaceFunctionListCache
              = some (interfaceFunctionList s).1) := by
  intro s
  cases hc : s.contract.interfaceFunctionListCache with
  | some l =>
      refine ⟨?_, ?_, ?_, ?_, ?_, ?_, ?_⟩ <;>
        simp [interfaceFunctionList, interfaceFunctions, hc]
  | none =>
      refine ⟨?_, ?_, ?_, ?_, ?_, ?_, ?_⟩ <;>
        simp [interfaceFunctionList, interfaceFunctions, hc]

/-- C4 witness: the cache behaviour on a concrete fresh contract with one public
    function, one private function and one public state variable. -/
theorem interfaceFunctionsCachedSpecWitness :
    (interfaceFunctionList
        ⟨⟨"C",
          [.functionDefinition ⟨"f", .Default, false, []⟩,
           .functionDefinition ⟨"g", .Private, false, []⟩,
           .variableDeclaration ⟨"v", .Public, true⟩],
          none⟩, [(7, "resolved")]⟩).1
      = computeInterfaceFunctionList
          [.functionDefinition ⟨"f", .Default, false, []⟩,
           .functionDefinition ⟨"g", .Private, false, []⟩,
           .variableDeclaration ⟨"v", .Public, true⟩]
    ∧ (interfaceFunctionList
        ⟨⟨"C",
          [.functionDefinition ⟨"f", .Default, false, []⟩,
           .functionDefinition ⟨"g", .Private, false, []⟩,
           .variableDeclaration ⟨"v", .Public, true⟩],
          none⟩, [(7, "resolved")]⟩).2.annotations
      = [(7, "resolved")] :=
  ⟨((interfaceFunctionsCachedSpec
      ⟨⟨"C",
        [.functionDefinition ⟨"f", .Default, false, []⟩,
         .functionDefinition ⟨"g", .Private, false, []⟩,
         .variableDeclaration ⟨"v", .Public, true⟩],
        none⟩, [(7, "resolved")]⟩).2.2.2.2.2.2 rfl).1,
   (interfaceFunctionsCachedSpec
      ⟨⟨"C",
        [.functionDefinition ⟨"f", .Default, false, []⟩,
         .functionDefinition ⟨"g", .Private, false, []⟩,
         .variableDeclaration ⟨"v", .Public, true⟩],
        none⟩, [(7, "resolved")]⟩).2.2.1⟩

/-- C6: a base-contract reference or modifier invocation written without
    parentheses carries a null argument list, one written with empty parentheses
    carries a non-null zero-length list, and the arguments accessor distinguishes
    the two states. -/
theorem optionalArgumentListDistinctionSpec :
    ∀ base modName : String,
      (inheritanceNoParens base).arguments = none
      ∧ (inheritanceEmptyParens base).arguments = some []
      ∧ (inheritanceEmptyParens base).arguments.map List.length = some 0
      ∧ (inheritanceNoParens base).arguments ≠ (inheritanceEmptyParens base).arguments
      ∧ (modifierNoParens modName).arguments = none
      ∧ (modifierEmptyParens modName).arguments = some []
      ∧ (modifierEmptyParens modName).arguments.map List.length = some 0
      ∧ (modifierNoParens modName).arguments ≠ (modifierEmptyParens modName).arguments := by
  intro base modName
  refine ⟨rfl, rfl, rfl, ?_, rfl, rfl, rfl, ?_⟩
  · simp [inheritanceNoParens, inheritanceEmptyParens, InheritanceSpecifier.arguments]
  · simp [modifierNoParens, modifierEmptyParens, ModifierInvocation.arguments]

/-- C6 witness: the distinction at concrete names. -/
theorem optionalArgumentListDistinctionSpecWitness :
    (inheritanceNoParens sampleBaseName).arguments
      ≠ (inheritanceEmptyParens sampleBaseName).arguments
    ∧ (modifierNoParens sampleModifierName).arguments
      ≠ (modifierEmptyParens sampleModifierName).arguments :=
  ⟨(optionalArgumentListDistinctionSpec sampleBaseName sampleModifierName).2.2.2.1,
   (optionalArgumentListDistinctionSpec sampleBaseName sampleModifierName).2.2.2.2.2.2.2⟩

/-- C7: among simultaneously live nodes (which, being noncopyable, have pairwise
    distinct addresses), operator== holds exactly on the same object - identity,
    not structural equality - and operator!= is exactly its negation. -/
theorem nodeIdentityEqualitySpec :
    ∀ (h : List NodeObject) (a b : NodeObject),
      (h.map NodeObject.addr).Nodup → a ∈ h → b ∈ h →
      ((nodeEq a b = true ↔ a = b) ∧ nodeNe a b = !nodeEq a b) := by
  intro h a b hnd ha hb
  refine ⟨⟨?_, ?_⟩, rfl⟩
  · intro he
    refine List.inj_on_of_nodup_map hnd ha hb ?_
    simpa [nodeEq] using he
  · intro he
    subst he
    simp [nodeEq]

/-- C7 witness: two live nodes with identical structural content but distinct
    addresses compare unequal - the comparison is identity. -/
theorem nodeIdentityEqualitySpecWitness :
    (nodeEq ⟨0, "node"⟩ ⟨1, "node"⟩ = true ↔ (⟨0, "node"⟩ : NodeObject) = ⟨1, "node"⟩)
    ∧ nodeNe ⟨0, "node"⟩ ⟨1, "node"⟩ = !nodeEq ⟨0, "node"⟩ ⟨1, "node"⟩ :=
  nodeIdentityEqualitySpec [⟨0, "node"⟩, ⟨1, "node"⟩] ⟨0, "node"⟩ ⟨1, "node"⟩
    (by decide) (by decide) (by decide)

/-- Every id handed out by a run of constructions is strictly above the counter
    value the run started from. -/
theorem constructionIDsLowerBound :
    ∀ (n c x : Nat), x ∈ constructionIDs c n → c < x := by
  intro n
  induction n with
  | zero =>
      intro c x hx
      simp [constructionIDs] at hx
  | succ k ih =>
      intro c x hx
      simp only [constructionIDs, allocateID, List.mem_cons] at hx
      rcases hx with rfl | hx
      · omega
      · have := ih (c + 1) x hx
        omega

/-- C8: within one run (no intervening resetID), the ids of successively
    constructed nodes strictly increase in construction order, hence are pairwise
    distinct, one per construction. -/
theorem nodeIDsUniqueIncreasingSpec :
    ∀ (c n : Nat),
      (constructionIDs c n).Pairwise (fun a b => a < b)
      ∧ (constructionIDs c n).Nodup
      ∧ (constructionIDs c n).length = n := by
  have hpw : ∀ (n c : Nat), (constructionIDs c n).Pairwise (fun a b => a < b) := by
    intro n
    induction n with
    | zero =>
        intro c
        simp [constructionIDs]
    | succ k ih =>
        intro c
        simp only [constructionIDs, allocateID]
        constructor
        · intro b hb
          exact constructionIDsLowerBound k (c + 1) b hb
        · exact ih (c + 1)
  have hlen : ∀ (n c : Nat), (constructionIDs c n).length = n := by
    intro n
    induction n with
    | zero =>
        intro c
        rfl
    | succ k ih =>
        intro c
        simp [constructionIDs, ih]
  intro c n
  exact ⟨hpw n c, (hpw n c).imp (fun hab => Nat.ne_of_lt hab), hlen n c⟩

/-- C9: listAccept dispatches the visitor into exactly the non-absent elements of
    the optional-child list, in list order, skipping absent ones. -/
theorem listAcceptSpec :
    ∀ (l : List (Option Nat)),
      listAccept l = l.filterMap id
      ∧ (∀ x : Nat, x ∈ listAccept l ↔ some x ∈ l)
      ∧ List.Sublist ((listAccept l).map some) l := by
  intro l
  induction l with
  | nil =>
      exact ⟨rfl, by simp [listAccept], by simp [listAccept]⟩
  | cons o rest ih =>
      cases o with
      | none =>
          refine ⟨?_, ?_, ?_⟩
          · simpa [listAccept, List.filterMap_cons] using ih.1
          · intro x
            simpa [listAccept, List.mem_cons] using ih.2.1 x
          · exact List.Sublist.cons none ih.2.2
      | some a =>
          refine ⟨?_, ?_, ?_⟩
          · simpa [listAccept, List.filterMap_cons] using ih.1
          · intro x
            simp only [listAccept, List.mem_cons]
            rw [ih.2.1 x]
            constructor
            · rintro (rfl | hx)
              · exact Or.inl rfl
              · exact Or.inr hx
            · rintro (hx | hx)
              · exact Or.inl (Option.some.inj hx)
              · exact Or.inr hx
          · simpa [listAccept] using List.Sublist.cons₂ (some a) ih.2.2

/-- C9 witness: the traversal of a concrete optional-child list. -/
theorem listAcceptSpecWitness :
    listAccept [some 1, none, some 2] = List.filterMap id [some 1, none, some 2]
    ∧ (1 ∈ listAccept [some 1, none, some 2] ↔ some 1 ∈ [some 1, none, some 2]) :=
  ⟨(listAcceptSpec [some 1, none, some 2]).1,
   (listAcceptSpec [some 1, none, some 2]).2.1 1⟩

/-- C10: the Assignment, UnaryOperation and BinaryOperation constructors succeed
    exactly when the operator token is of the asserted class, so every constructed
    node carries an operator of the right class. -/
theorem operatorClassConstructorSpec :
    ∀ (lhs rhs sub l r : Expression) (op : Token) (pre : Bool),
      ((Assignment.construct lhs op rhs).isSome = true
          ↔ TokenTraits.isAssignmentOp op = true)
      ∧ (∀ a : Assignment, Assignment.construct lhs op rhs = some a →
          TokenTraits.isAssignmentOp a.assignmentOperator = true)
      ∧ ((UnaryOperation.construct op sub pre).isSome = true
          ↔ TokenTraits.isUnaryOp op = true)
      ∧ (∀ u : UnaryOperation, UnaryOperation.construct op sub pre = some u →
          TokenTraits.isUnaryOp u.operatorToken = true)
      ∧ ((BinaryOperation.construct l op r).isSome = true
          ↔ (TokenTraits.isBinaryOp op || TokenTraits.isCompareOp op) = true)
      ∧ (∀ b : BinaryOperation, BinaryOperation.construct l op r = some b →
          (TokenTraits.isBinaryOp b.operatorToken
            || TokenTraits.isCompareOp b.operatorToken) = true) := by
  intro lhs rhs sub l r op pre
  refine ⟨?_, ?_, ?_, ?_, ?_, ?_⟩
  · by_cases hop : TokenTraits.isAssignmentOp op = true <;>
      simp [Assignment.construct, hop]
  · intro a ha
    by_cases hop : TokenTraits.isAssignmentOp op = true
    · rw [Assignment.construct, if_pos hop] at ha
      cases ha
      simpa using hop
    · rw [Assignment.construct, if_neg hop] at ha
      cases ha
  · by_cases hop : TokenTraits.isUnaryOp op = true <;>
      simp [UnaryOperation.construct, hop]
  · intro u hu
    by_cases hop : TokenTraits.isUnaryOp op = true
    · rw [UnaryOperation.construct, if_pos hop] at hu
      cases hu
      simpa using hop
    · rw [UnaryOperation.construct, if_neg hop] at hu
      cases hu
  · by_cases hop : (TokenTraits.isBinaryOp op || TokenTraits.isCompareOp op) = true <;>
      simp [BinaryOperation.construct, hop]
  · intro b hb
    by_cases hop : (TokenTraits.isBinaryOp op || TokenTraits.isCompareOp op) = true
    · rw [BinaryOperation.construct, if_pos hop] at hb
      cases hb
      simpa using hop
    · rw [BinaryOperation.construct, if_neg hop] at hb
      cases hb

/-- C10 witness: well-classed operators construct, a misclassed one does not. -/
theorem operatorClassConstructorSpecWitness :
    (Assignment.construct (.literalNumber 1) .Assign (.literalNumber 2)).isSome = true
    ∧ (UnaryOperation.construct .Not (.literalNumber 1) true).isSome = true
    ∧ (BinaryOperation.construct (.literalNumber 1) .Add (.literalNumber 2)).isSome = true
    ∧ (Assignment.construct (.literalNumber 1) .Semicolon (.literalNumber 2)).isSome = false :=
  ⟨(operatorClassConstructorSpec (.literalNumber 1) (.literalNumber 2) (.literalNumber 1)
      (.literalNumber 1) (.literalNumber 2) .Assign true).1.mpr (by decide),
   (operatorClassConstructorSpec (.literalNumber 1) (.literalNumber 2) (.literalNumber 1)
      (.literalNumber 1) (.literalNumber 2) .Not true).2.2.1.mpr (by decide),
   (operatorClassConstructorSpec (.literalNumber 1) (.literalNumber 2) (.literalNumber 1)
      (.literalNumber 1) (.literalNumber 2) .Add true).2.2.2.2.1.mpr (by decide),
   by
     have h := (operatorClassConstructorSpec (.literalNumber 1) (.literalNumber 2)
       (.literalNumber 1) (.literalNumber 1) (.literalNumber 2) .Semicolon true).1
     revert h
     decide⟩

end SolAST
